import Mathlib

/-!
Verification of the emotion-sensing light controller and its music-playing
variant.  The development shallowly embeds the two Python source files:

* `main.py` — `EmotionProcessor` (classification adapter, history buffer,
  pattern detector, actuator mapper) and the `main` per-frame loop
  (state stabilizer);
* `main+音乐播放.py` — the FER-based max-emotion selection loop and
  `play_music_for_emotion` (audio gateway).

Machine state (the `emotion_history` list, the loop's `last_emotion` /
`last_light_params` variables, the global `current_music`) is passed
explicitly.  The opaque classifier output is a parameter; confidences and
scores are rationals.  External effects (light commands, audio load/play)
are returned as values rather than performed.
-/

/-- Light parameters: brightness followed by the (R, G, B) channels,
mirroring the `(亮度, RGB颜色)` tuples of `main.py`. -/
abbrev LightParams := Nat × Nat × Nat × Nat

/-- `EmotionProcessor.supported_emotions`: the seven raw DeepFace labels. -/
def supported_emotions : List String :=
  ["angry", "disgust", "fear", "happy", "sad", "surprise", "neutral"]

/-- `EmotionProcessor.emotion_to_light`: the emotion → light-parameter
dictionary literal of `main.py`, in source order. -/
def emotion_to_light : List (String × LightParams) :=
  [("happy",    (85, 255, 200, 100)),
   ("neutral",  (65, 220, 230, 255)),
   ("sad",      (45, 150, 180, 255)),
   ("angry",    (55, 255, 100, 100)),
   ("surprise", (70, 255, 255, 200)),
   ("fear",     (40, 100, 100, 200)),
   ("disgust",  (50, 150, 200, 100)),
   ("default",  (65, 255, 255, 255))]

/-- Python `dict.get(k)` on the light table: first binding for `k`, if any. -/
def light_get (k : String) : Option LightParams :=
  (emotion_to_light.find? (fun p => p.1 == k)).map (fun p => p.2)

/-- `EmotionProcessor.map_emotion_to_light`: special-case the two derived
states, then `self.emotion_to_light.get(emotion, self.emotion_to_light['default'])`.
The `'default'` key is present in the table, so the final `.getD` fallback
is never reached. -/
def map_emotion_to_light (emotion : String) : LightParams :=
  if emotion = "focused" then (95, 255, 255, 255)
  else if emotion = "tired" then (45, 255, 180, 80)
  else match light_get emotion with
       | some p => p
       | none => (light_get "default").getD (65, 255, 255, 255)

/-- C4: the Actuator Mapper is total and pure: for every input label it
returns a defined (brightness, color) tuple; the seven raw labels and the
two derived labels map to exactly the fixed table values, and every label
outside this set maps to the default entry (65, (255,255,255)). -/
theorem map_emotion_to_light_table :
    map_emotion_to_light "happy" = (85, 255, 200, 100) ∧
    map_emotion_to_light "neutral" = (65, 220, 230, 255) ∧
    map_emotion_to_light "sad" = (45, 150, 180, 255) ∧
    map_emotion_to_light "angry" = (55, 255, 100, 100) ∧
    map_emotion_to_light "surprise" = (70, 255, 255, 200) ∧
    map_emotion_to_light "fear" = (40, 100, 100, 200) ∧
    map_emotion_to_light "disgust" = (50, 150, 200, 100) ∧
    map_emotion_to_light "focused" = (95, 255, 255, 255) ∧
    map_emotion_to_light "tired" = (45, 255, 180, 80) ∧
    ∀ e : String,
      e ∉ ["happy", "neutral", "sad", "angry", "surprise", "fear", "disgust",
           "focused", "tired"] →
      map_emotion_to_light e = (65, 255, 255, 255) := by
  refine ⟨rfl, rfl, rfl, rfl, rfl, rfl, rfl, rfl, rfl, ?_⟩
  intro e he
  simp only [List.mem_cons, List.not_mem_nil, or_false, not_or] at he
  obtain ⟨h1, h2, h3, h4, h5, h6, h7, h8, h9⟩ := he
  by_cases hd : e = "default"
  · subst hd; rfl
  · have e1 : ("happy" == e) = false := beq_eq_false_iff_ne.mpr (Ne.symm h1)
    have e2 : ("neutral" == e) = false := beq_eq_false_iff_ne.mpr (Ne.symm h2)
    have e3 : ("sad" == e) = false := beq_eq_false_iff_ne.mpr (Ne.symm h3)
    have e4 : ("angry" == e) = false := beq_eq_false_iff_ne.mpr (Ne.symm h4)
    have e5 : ("surprise" == e) = false := beq_eq_false_iff_ne.mpr (Ne.symm h5)
    have e6 : ("fear" == e) = false := beq_eq_false_iff_ne.mpr (Ne.symm h6)
    have e7 : ("disgust" == e) = false := beq_eq_false_iff_ne.mpr (Ne.symm h7)
    have ed : ("default" == e) = false := beq_eq_false_iff_ne.mpr (Ne.symm hd)
    simp [map_emotion_to_light, light_get, emotion_to_light, h8, h9,
      List.find?, e1, e2, e3, e4, e5, e6, e7, ed]

/-- Witness for the default-mapping hypothesis of C4 at a synthetic
unknown label. -/
theorem map_emotion_to_light_table_witness :
    map_emotion_to_light "confused" = (65, 255, 255, 255) :=
  map_emotion_to_light_table.2.2.2.2.2.2.2.2.2 "confused" (by decide)

/-- `EmotionProcessor.history_max_len`: capacity of the history buffer. -/
def history_max_len : Nat := 20

/-- `EmotionProcessor._update_emotion_history`: append the label; if the
length now exceeds the capacity, `pop(0)` the oldest element. -/
def update_emotion_history (emotion_history : List String) (emotion : String) :
    List String :=
  let h := emotion_history ++ [emotion]
  if history_max_len < h.length then h.drop 1 else h

/-- One push preserves the capacity bound. -/
theorem update_emotion_history_length_le (hist : List String) (e : String)
    (h : hist.length ≤ history_max_len) :
    (update_emotion_history hist e).length ≤ history_max_len := by
  rw [update_emotion_history]
  split <;> simp_all [history_max_len]

/-- Folding pushes from a within-capacity buffer stays within capacity. -/
theorem foldl_update_length_le (xs : List String) (hist : List String)
    (h : hist.length ≤ history_max_len) :
    (xs.foldl update_emotion_history hist).length ≤ history_max_len := by
  induction xs generalizing hist with
  | nil => simpa using h
  | cons x xs ih =>
    simpa using ih _ (update_emotion_history_length_le hist x h)

/-- C5: the history buffer never exceeds capacity 20; a push at capacity
evicts exactly the oldest element (FIFO); pushing 21 distinct labels into
an empty buffer leaves the 20 most recent in push order. -/
theorem emotion_history_capacity :
    (∀ xs : List String, (xs.foldl update_emotion_history []).length ≤ 20) ∧
    (∀ (buf : List String) (x : String), buf.length = 20 →
      update_emotion_history buf x = buf.drop 1 ++ [x]) ∧
    ([ "l00", "l01", "l02", "l03", "l04", "l05", "l06", "l07", "l08", "l09",
       "l10", "l11", "l12", "l13", "l14", "l15", "l16", "l17", "l18", "l19",
       "l20"].foldl update_emotion_history [] =
     [ "l01", "l02", "l03", "l04", "l05", "l06", "l07", "l08", "l09",
       "l10", "l11", "l12", "l13", "l14", "l15", "l16", "l17", "l18", "l19",
       "l20"]) := by
  refine ⟨fun xs => foldl_update_length_le xs [] (by simp [history_max_len]),
          fun buf x hlen => ?_, by rfl⟩
  have hpos : buf ≠ [] := by intro h; simp [h] at hlen
  obtain ⟨b, t, rfl⟩ := List.exists_cons_of_ne_nil hpos
  simp only [List.length_cons] at hlen
  rw [update_emotion_history]
  rw [if_pos (by simp [history_max_len]; omega)]
  simp

/-- Witness for the eviction clause of C5 at a concrete full buffer. -/
theorem emotion_history_capacity_witness :
    update_emotion_history (List.replicate 19 "neutral" ++ ["happy"]) "sad" =
      (List.replicate 19 "neutral" ++ ["happy"]).drop 1 ++ ["sad"] :=
  emotion_history_capacity.2.1 (List.replicate 19 "neutral" ++ ["happy"]) "sad"
    (by decide)

/-- `EmotionProcessor._analyze_emotion_pattern`: needs at least 10 samples;
over `emotion_history[-10:]`, 8+ neutral/happy frames mean `focused`,
else 6+ sad frames mean `tired`, else no derived state. -/
def analyze_emotion_pattern (emotion_history : List String) : Option String :=
  if emotion_history.length < 10 then none
  else
    let recent := emotion_history.drop (emotion_history.length - 10)
    let neutral_count := recent.count "neutral"
    let calm_count := recent.count "happy"
    if 8 ≤ neutral_count + calm_count then some "focused"
    else
      let sad_count := recent.count "sad"
      if 6 ≤ sad_count then some "tired"
      else none

/-- C2: with fewer than 10 entries the pattern detector yields no derived
state; otherwise, over the last-10 window, `focused` exactly when
count(neutral)+count(happy) ≥ 8 (regardless of the sad count — focus is
checked first), else `tired` exactly when count(sad) ≥ 6, else nothing. -/
theorem analyze_emotion_pattern_rules (hist : List String) :
    (hist.length < 10 → analyze_emotion_pattern hist = none) ∧
    (10 ≤ hist.length →
      (8 ≤ (hist.rtake 10).count "neutral" + (hist.rtake 10).count "happy" →
        analyze_emotion_pattern hist = some "focused") ∧
      ((hist.rtake 10).count "neutral" + (hist.rtake 10).count "happy" < 8 →
        6 ≤ (hist.rtake 10).count "sad" →
        analyze_emotion_pattern hist = some "tired") ∧
      ((hist.rtake 10).count "neutral" + (hist.rtake 10).count "happy" < 8 →
        (hist.rtake 10).count "sad" < 6 →
        analyze_emotion_pattern hist = none)) := by
  refine ⟨fun h => ?_, fun hlen => ⟨fun hfoc => ?_, fun hnf hsad => ?_,
    fun hnf hns => ?_⟩⟩ <;> simp only [List.rtake] at *
  · rw [analyze_emotion_pattern, if_pos h]
  · rw [analyze_emotion_pattern, if_neg (by omega)]
    dsimp only
    rw [if_pos hfoc]
  · rw [analyze_emotion_pattern, if_neg (by omega)]
    dsimp only
    rw [if_neg (by omega), if_pos hsad]
  · rw [analyze_emotion_pattern, if_neg (by omega)]
    dsimp only
    rw [if_neg (by omega), if_neg (by omega)]

/-- Witness for C2: the three rule branches and the short-history branch
at concrete histories (including a window where the focus rule fires while
sad frames are present). -/
theorem analyze_emotion_pattern_rules_witness :
    analyze_emotion_pattern (List.replicate 5 "sad") = none ∧
    analyze_emotion_pattern
      (List.replicate 8 "neutral" ++ List.replicate 2 "sad") = some "focused" ∧
    analyze_emotion_pattern
      (List.replicate 4 "neutral" ++ List.replicate 6 "sad") = some "tired" ∧
    analyze_emotion_pattern
      (List.replicate 5 "neutral" ++ List.replicate 5 "sad") = none := by
  refine ⟨(analyze_emotion_pattern_rules _).1 (by decide),
    ((analyze_emotion_pattern_rules _).2 (by decide)).1 (by decide),
    (((analyze_emotion_pattern_rules _).2 (by decide)).2.1 (by decide) (by decide)),
    (((analyze_emotion_pattern_rules _).2 (by decide)).2.2 (by decide) (by decide))⟩

/-- The shape DeepFace's per-face result is read with in `detect_emotion`:
the `dominant_emotion` field and the `emotion` score dictionary (modelled
as an association list in iteration order, scores as rationals). -/
structure EmotionResult where
  dominant_emotion : String
  emotion : List (String × ℚ)
deriving DecidableEq

/-- Python `dict.get(k, dflt)` on a score dictionary. -/
def dictGet (d : List (String × ℚ)) (k : String) (dflt : ℚ) : ℚ :=
  match d.find? (fun p => p.1 == k) with
  | some p => p.2
  | none => dflt

/-- `EmotionProcessor.detect_emotion`, state-passing form.  The input is
the normalized classifier outcome: `none` when the analysis raised, was
not a list, or was empty (all paths that reach `return 'neutral'` without
touching the history); `some res` when a first face result was obtained.
Confidence is `emotion.get(dominant_emotion, 0)`; only results with
confidence strictly above 20 are accepted: the label is appended to the
history, the pattern detector runs on the updated history and its verdict,
when present, overrides the raw label.  Returns the emotion string and the
updated history. -/
def detect_emotion (emotion_history : List String)
    (analysis : Option EmotionResult) : String × List String :=
  match analysis with
  | none => ("neutral", emotion_history)
  | some res =>
    let dominant_emotion := res.dominant_emotion
    let confidence := dictGet res.emotion dominant_emotion 0
    if 20 < confidence then
      let hist := update_emotion_history emotion_history dominant_emotion
      match analyze_emotion_pattern hist with
      | some special_state => (special_state, hist)
      | none => (dominant_emotion, hist)
    else ("neutral", emotion_history)

/-- Membership after a push comes from the old buffer or the pushed label. -/
theorem mem_update_emotion_history (hist : List String) (x e : String)
    (h : e ∈ update_emotion_history hist x) : e ∈ hist ∨ e = x := by
  rw [update_emotion_history] at h
  have hsub : e ∈ hist ++ [x] := by
    by_cases hc : history_max_len < (hist ++ [x]).length
    · rw [if_pos hc] at h
      exact List.drop_subset 1 (hist ++ [x]) h
    · rw [if_neg hc] at h
      exact h
  rcases List.mem_append.mp hsub with h1 | h1
  · exact Or.inl h1
  · exact Or.inr (by simpa using h1)

/-- The history `detect_emotion` leaves behind is either the old one or
the old one with the classifier's raw dominant label pushed. -/
theorem detect_emotion_history_cases (hist : List String)
    (analysis : Option EmotionResult) :
    (detect_emotion hist analysis).2 = hist ∨
    ∃ res, analysis = some res ∧
      (detect_emotion hist analysis).2 =
        update_emotion_history hist res.dominant_emotion := by
  match analysis with
  | none => exact Or.inl rfl
  | some res =>
    rw [detect_emotion]
    by_cases hc : (20 : ℚ) < dictGet res.emotion res.dominant_emotion 0
    · rw [if_pos hc]
      refine Or.inr ⟨res, rfl, ?_⟩
      cases h : analyze_emotion_pattern
          (update_emotion_history hist res.dominant_emotion) <;> simp [h]
    · rw [if_neg hc]
      exact Or.inl rfl

/-- C6: if every label already in the history is a raw supported emotion
and the classifier's dominant label is raw, then after `detect_emotion`
every buffered label is still raw; in particular the derived labels
`focused` and `tired` never enter the history (the label pushed is the raw
dominant emotion, pushed before the pattern detector runs). -/
theorem detect_emotion_history_raw (hist : List String)
    (analysis : Option EmotionResult)
    (hraw : ∀ res, analysis = some res →
      res.dominant_emotion ∈ supported_emotions)
    (hhist : ∀ e ∈ hist, e ∈ supported_emotions) :
    (∀ e ∈ (detect_emotion hist analysis).2, e ∈ supported_emotions) ∧
    "focused" ∉ (detect_emotion hist analysis).2 ∧
    "tired" ∉ (detect_emotion hist analysis).2 := by
  have hall : ∀ e ∈ (detect_emotion hist analysis).2, e ∈ supported_emotions := by
    rcases detect_emotion_history_cases hist analysis with hsame | ⟨res, hres, hupd⟩
    · rw [hsame]; exact hhist
    · rw [hupd]
      intro e he
      rcases mem_update_emotion_history hist res.dominant_emotion e he with h1 | h1
      · exact hhist e h1
      · exact h1 ▸ hraw res hres
  refine ⟨hall, fun hmem => ?_, fun hmem => ?_⟩
  · exact absurd (hall _ hmem) (by decide)
  · exact absurd (hall _ hmem) (by decide)

/-- Witness for C6 at a concrete history and an accepted sad face. -/
theorem detect_emotion_history_raw_witness :
    (∀ e ∈ (detect_emotion ["happy"]
        (some ⟨"sad", [("sad", 90)]⟩)).2, e ∈ supported_emotions) ∧
    "focused" ∉ (detect_emotion ["happy"]
        (some ⟨"sad", [("sad", 90)]⟩)).2 ∧
    "tired" ∉ (detect_emotion ["happy"]
        (some ⟨"sad", [("sad", 90)]⟩)).2 :=
  detect_emotion_history_raw ["happy"] (some ⟨"sad", [("sad", 90)]⟩)
    (fun res hres => by
      injection hres with h
      rw [← h]
      decide)
    (by decide)

/-- The transition check of `main`'s loop body, acting on the
`last_emotion` / `last_light_params` pair: Python
`if current_emotion and current_emotion != last_emotion` (a string is
truthy iff non-empty, and `last_emotion` starts as `None`).  On a
transition the light command is issued and both variables update;
otherwise nothing happens.  Returns the new pair and the issued command,
if any. -/
def stabilizer_step (last_emotion : Option String)
    (last_light_params : Option LightParams) (current_emotion : String) :
    (Option String × Option LightParams) × Option LightParams :=
  if current_emotion ≠ "" ∧ some current_emotion ≠ last_emotion then
    ((some current_emotion, some (map_emotion_to_light current_emotion)),
     some (map_emotion_to_light current_emotion))
  else ((last_emotion, last_light_params), none)

/-- Iterate the transition check over a stream of effective labels,
counting the actuator commands issued. -/
def run_stabilizer (s : Option String × Option LightParams)
    (labels : List String) : (Option String × Option LightParams) × Nat :=
  labels.foldl
    (fun acc l =>
      ((stabilizer_step acc.1.1 acc.1.2 l).1,
       acc.2 + if (stabilizer_step acc.1.1 acc.1.2 l).2.isSome then 1 else 0))
    (s, 0)

/-- Once the label is committed, further identical labels never change the
accumulated state or command count. -/
theorem run_stabilizer_committed (L : String) (k : Nat)
    (lp : Option LightParams) (c : Nat) :
    (List.replicate k L).foldl
      (fun acc l =>
        ((stabilizer_step acc.1.1 acc.1.2 l).1,
         acc.2 + if (stabilizer_step acc.1.1 acc.1.2 l).2.isSome then 1 else 0))
      ((some L, lp), c) = ((some L, lp), c) := by
  induction k with
  | zero => rfl
  | succ n ih =>
    rw [List.replicate_succ, List.foldl_cons]
    have hstep : stabilizer_step (some L) lp L = ((some L, lp), none) := by
      rw [stabilizer_step, if_neg (by simp)]
    simpa [hstep] using ih

/-- C3: feeding the stabilizer the same effective label `L` for `N ≥ 1`
consecutive sampled frames, starting from a state whose committed label
differs from `L`, issues exactly one actuator command and commits `L` with
its mapped light parameters; and any frame whose effective label equals
the committed one is a no-op leaving both the committed label and the last
light parameters unchanged. -/
theorem stabilizer_one_command (L : String) (N : Nat)
    (last_emotion : Option String) (last_light_params : Option LightParams)
    (hL : L ≠ "") (hne : last_emotion ≠ some L) (hN : 1 ≤ N) :
    run_stabilizer (last_emotion, last_light_params) (List.replicate N L) =
      ((some L, some (map_emotion_to_light L)), 1) ∧
    ∀ (last' : Option String) (lp' : Option LightParams),
      last' = some L → stabilizer_step last' lp' L = ((last', lp'), none) := by
  constructor
  · obtain ⟨k, rfl⟩ : ∃ k, N = k + 1 := ⟨N - 1, by omega⟩
    rw [run_stabilizer, List.replicate_succ, List.foldl_cons]
    have hstep : stabilizer_step last_emotion last_light_params L =
        ((some L, some (map_emotion_to_light L)), some (map_emotion_to_light L)) := by
      rw [stabilizer_step, if_pos ⟨hL, fun h => hne h.symm⟩]
    simp only [hstep, Option.isSome_some, if_true]
    exact run_stabilizer_committed L k (some (map_emotion_to_light L)) (0 + 1)
  · intro last' lp' hlast
    subst hlast
    rw [stabilizer_step, if_neg (by simp)]

/-- Witness for C3: three consecutive `happy` frames from the initial
state trigger exactly one light command. -/
theorem stabilizer_one_command_witness :
    run_stabilizer (none, none) (List.replicate 3 "happy") =
      ((some "happy", some (85, 255, 200, 100)), 1) :=
  (stabilizer_one_command "happy" 3 none none (by decide) (by decide)
    (by decide)).1

/-- The mutable state of `main`'s loop that the per-frame pipeline touches:
the processor's history plus the `last_emotion` / `last_light_params`
variables (both initially `None`). -/
structure LoopState where
  emotion_history : List String
  last_emotion : Option String
  last_light_params : Option LightParams
deriving DecidableEq

/-- One sampled iteration of `main`'s loop (a frame with
`frame_count % FRAME_SKIP == 0`): run `detect_emotion`, and if the
returned emotion is truthy and differs from `last_emotion`, map it to
light parameters, command the lamp, and update both variables.  Returns
the new state and the light command issued, if any. -/
def sampled_step (s : LoopState) (analysis : Option EmotionResult) :
    LoopState × Option LightParams :=
  let current_emotion := (detect_emotion s.emotion_history analysis).1
  if current_emotion ≠ "" ∧ some current_emotion ≠ s.last_emotion then
    (⟨(detect_emotion s.emotion_history analysis).2, some current_emotion,
      some (map_emotion_to_light current_emotion)⟩,
     some (map_emotion_to_light current_emotion))
  else
    (⟨(detect_emotion s.emotion_history analysis).2, s.last_emotion,
      s.last_light_params⟩, none)

/-- C1 fails on the code: from Committed State `happy`, a frame whose
dominant emotion has confidence 10 ≤ 20 (no usable signal) is NOT a
no-op — `detect_emotion` falls back to the string `'neutral'`, which
differs from `happy`, so a light command is issued and the committed
label changes to `neutral`. -/
theorem no_signal_not_ignored_counterexample :
    (sampled_step ⟨[], some "happy", some (85, 255, 200, 100)⟩
        (some ⟨"sad", [("sad", 10)]⟩)).2 = some (65, 220, 230, 255) ∧
    (sampled_step ⟨[], some "happy", some (85, 255, 200, 100)⟩
        (some ⟨"sad", [("sad", 10)]⟩)).1.last_emotion = some "neutral" := by
  constructor <;> rfl

/-- C1 amended: a frame with no usable signal (no face, or confidence at
most 20) resolves to the fallback label `neutral` and never touches the
history; if the committed label is already `neutral` the state persists
unchanged and no command is issued, otherwise the Committed State
transitions to `neutral` and one light command with the neutral
parameters (65, (220,230,255)) is issued. -/
theorem no_signal_neutral_fallback (s : LoopState)
    (analysis : Option EmotionResult)
    (hns : analysis = none ∨ ∃ res, analysis = some res ∧
      dictGet res.emotion res.dominant_emotion 0 ≤ 20) :
    (sampled_step s analysis).1.emotion_history = s.emotion_history ∧
    (s.last_emotion = some "neutral" → sampled_step s analysis = (s, none)) ∧
    (s.last_emotion ≠ some "neutral" →
      (sampled_step s analysis).1 =
        ⟨s.emotion_history, some "neutral", some (65, 220, 230, 255)⟩ ∧
      (sampled_step s analysis).2 = some (65, 220, 230, 255)) := by
  have hd : detect_emotion s.emotion_history analysis =
      ("neutral", s.emotion_history) := by
    rcases hns with rfl | ⟨res, rfl, hconf⟩
    · rfl
    · rw [detect_emotion, if_neg (not_lt.mpr hconf)]
  by_cases hn : s.last_emotion = some "neutral"
  · have hstep : sampled_step s analysis = (s, none) := by
      rw [sampled_step]
      simp only [hd]
      rw [if_neg (by simp [hn])]
    exact ⟨by rw [hstep], fun _ => hstep, fun h => absurd hn h⟩
  · have hstep : sampled_step s analysis =
        (⟨s.emotion_history, some "neutral", some (65, 220, 230, 255)⟩,
         some (65, 220, 230, 255)) := by
      rw [sampled_step]
      simp only [hd]
      rw [if_pos ⟨by decide, fun h => hn h.symm⟩]
      rfl
    exact ⟨by rw [hstep], fun h => absurd h hn,
      fun _ => ⟨by rw [hstep], by rw [hstep]⟩⟩

/-- Witness for the amended C1: a no-face frame from Committed State
`happy` transitions to `neutral` with the neutral light command. -/
theorem no_signal_neutral_fallback_witness :
    (sampled_step ⟨[], some "happy", some (85, 255, 200, 100)⟩ none).1 =
      ⟨[], some "neutral", some (65, 220, 230, 255)⟩ ∧
    (sampled_step ⟨[], some "happy", some (85, 255, 200, 100)⟩ none).2 =
      some (65, 220, 230, 255) :=
  (no_signal_neutral_fallback ⟨[], some "happy", some (85, 255, 200, 100)⟩
    none (Or.inl rfl)).2.2 (by decide)

/-- `emotion_music` from `main+音乐播放.py`: emotion label → track file. -/
def emotion_music : List (String × String) :=
  [("happy", "music/happy.mp3"),
   ("sad", "music/sad.mp3"),
   ("angry", "music/angry.mp3"),
   ("surprise", "music/surprise.mp3"),
   ("neutral", "music/neutral.mp3"),
   ("fear", "music/fear.mp3"),
   ("disgust", "music/disgust.mp3")]

/-- Python `emotion in emotion_music` / `emotion_music[emotion]` folded
into one lookup. -/
def music_get (e : String) : Option String :=
  (emotion_music.find? (fun p => p.1 == e)).map (fun p => p.2)

/-- Successful audio-engine operations performed by the gateway:
`pygame.mixer.music.load(file)` and `pygame.mixer.music.play(loops)`
(loops `-1` plays the track in an endless loop). -/
inductive MusicAction where
  | load (file : String)
  | play (loops : Int)
deriving DecidableEq

/-- `play_music_for_emotion`, state-passing form.  The global
`current_music` is threaded explicitly; `ok file` models whether the
`load`/`play(-1)` calls inside the `try` block complete without raising
(on an exception `current_music` is not assigned).  Returns the new
`current_music` and the audio operations that completed. -/
def play_music_for_emotion (ok : String → Bool) (current_music : Option String)
    (emotion : String) : Option String × List MusicAction :=
  match music_get emotion with
  | none => (current_music, [])
  | some music_file =>
    if current_music = some music_file then (current_music, [])
    else if ok music_file then
      (some music_file, [MusicAction.load music_file, MusicAction.play (-1)])
    else (current_music, [])

/-- C7: the audio gateway is idempotent: when the track mapped to the
emotion is already the playing one, the call is a no-op (no load, no
restart, `current_music` unchanged); when it differs and the engine
succeeds, the new track is loaded and played with loop count −1
(indefinitely) and recorded as current, so only a different track can
supersede it. -/
theorem play_music_idempotent (ok : String → Bool)
    (current_music : Option String) (emotion track : String)
    (htrack : music_get emotion = some track) :
    (current_music = some track →
      play_music_for_emotion ok current_music emotion = (current_music, [])) ∧
    (current_music ≠ some track → ok track = true →
      play_music_for_emotion ok current_music emotion =
        (some track, [MusicAction.load track, MusicAction.play (-1)])) := by
  constructor
  · intro hsame
    simp only [play_music_for_emotion, htrack]
    rw [if_pos hsame]
  · intro hdiff hok
    simp only [play_music_for_emotion, htrack]
    rw [if_neg hdiff, if_pos hok]

/-- Witness for C7: with `happy.mp3` playing, a `happy` frame is a no-op,
and from silence a `sad` frame loads and loops `sad.mp3`. -/
theorem play_music_idempotent_witness :
    play_music_for_emotion (fun _ => true) (some "music/happy.mp3") "happy" =
      (some "music/happy.mp3", []) ∧
    play_music_for_emotion (fun _ => true) none "sad" =
      (some "music/sad.mp3",
       [MusicAction.load "music/sad.mp3", MusicAction.play (-1)]) :=
  ⟨(play_music_idempotent (fun _ => true) (some "music/happy.mp3") "happy"
      "music/happy.mp3" (by decide)).1 rfl,
   (play_music_idempotent (fun _ => true) none "sad" "music/sad.mp3"
      (by decide)).2 (by decide) rfl⟩

/-- C9: when loading/starting a track raises, `current_music` is left
unchanged (the failed track is not recorded as playing), so a later frame
with the same emotion — once the engine succeeds — retries the playback
instead of being suppressed by the no-op check. -/
theorem play_music_retry_after_failure (ok retryOk : String → Bool)
    (current_music : Option String) (emotion track : String)
    (htrack : music_get emotion = some track)
    (hdiff : current_music ≠ some track) (hfail : ok track = false) :
    play_music_for_emotion ok current_music emotion = (current_music, []) ∧
    (retryOk track = true →
      play_music_for_emotion retryOk
          (play_music_for_emotion ok current_music emotion).1 emotion =
        (some track, [MusicAction.load track, MusicAction.play (-1)])) := by
  have hfirst : play_music_for_emotion ok current_music emotion =
      (current_music, []) := by
    simp only [play_music_for_emotion, htrack]
    rw [if_neg hdiff, if_neg (by simp [hfail])]
  refine ⟨hfirst, fun hok => ?_⟩
  rw [hfirst]
  show play_music_for_emotion retryOk current_music emotion = _
  simp only [play_music_for_emotion, htrack]
  rw [if_neg hdiff, if_pos hok]

/-- Witness for C9: a failing engine leaves `current_music` at `none`
after an `angry` frame, and the next `angry` frame with a working engine
plays `angry.mp3`. -/
theorem play_music_retry_after_failure_witness :
    play_music_for_emotion (fun _ => false) none "angry" = (none, []) ∧
    play_music_for_emotion (fun _ => true)
        (play_music_for_emotion (fun _ => false) none "angry").1 "angry" =
      (some "music/angry.mp3",
       [MusicAction.load "music/angry.mp3", MusicAction.play (-1)]) :=
  ⟨(play_music_retry_after_failure (fun _ => false) (fun _ => true) none
      "angry" "music/angry.mp3" (by decide) (by decide) rfl).1,
   (play_music_retry_after_failure (fun _ => false) (fun _ => true) none
      "angry" "music/angry.mp3" (by decide) (by decide) rfl).2 rfl⟩

/-- Body of the max-emotion loop of `main+音乐播放.py`: the single-entry
`max_emotion` dictionary (a key/score pair) is replaced by the iterated
entry exactly when its score strictly exceeds the current maximum. -/
def maxStep (acc p : String × ℚ) : String × ℚ := if acc.2 < p.2 then p else acc

/-- The per-face selection: fold the loop body over the emotion→score
dictionary in iteration order, starting from `{'none': 0}`; the selected
label is the remaining key. -/
def select_max_emotion (emotion : List (String × ℚ)) : String × ℚ :=
  emotion.foldl maxStep ("none", 0)

/-- If no score strictly exceeds the accumulator, the fold keeps it. -/
theorem foldl_maxStep_stay (es : List (String × ℚ)) (acc : String × ℚ)
    (h : ∀ p ∈ es, p.2 ≤ acc.2) : es.foldl maxStep acc = acc := by
  induction es with
  | nil => rfl
  | cons e t ih =>
    rw [List.foldl_cons, show maxStep acc e = acc from
      if_neg (not_lt.mpr (h e (List.mem_cons_self e t)))]
    exact ih fun p hp => h p (List.mem_cons_of_mem e hp)

/-- `find?` only depends on the predicate's values on the list. -/
theorem find?_congr_on (l : List (String × ℚ)) (p q : String × ℚ → Bool)
    (h : ∀ x ∈ l, p x = q x) : l.find? p = l.find? q := by
  induction l with
  | nil => rfl
  | cons e t ih =>
    by_cases hq : q e = true
    · rw [List.find?_cons_of_pos _ (by rw [h e (List.mem_cons_self e t)]; exact hq),
          List.find?_cons_of_pos _ hq]
    · rw [List.find?_cons_of_neg _ (by rw [h e (List.mem_cons_self e t)]; simpa using hq),
          List.find?_cons_of_neg _ (by simpa using hq)]
      exact ih fun x hx => h x (List.mem_cons_of_mem e hx)

/-- Behaviour of the max fold when some score strictly exceeds the
accumulator: the result is a list entry, strictly above the accumulator,
an upper bound of all scores, and the first entry whose score reaches it. -/
theorem foldl_maxStep_spec (es : List (String × ℚ)) (acc : String × ℚ)
    (h : ∃ p ∈ es, acc.2 < p.2) :
    es.foldl maxStep acc ∈ es ∧
    acc.2 < (es.foldl maxStep acc).2 ∧
    (∀ p ∈ es, p.2 ≤ (es.foldl maxStep acc).2) ∧
    es.find? (fun p => decide ((es.foldl maxStep acc).2 ≤ p.2)) =
      some (es.foldl maxStep acc) := by
  induction es generalizing acc with
  | nil => simp at h
  | cons e t ih =>
    rw [List.foldl_cons]
    by_cases hc : acc.2 < e.2
    · rw [show maxStep acc e = e from if_pos hc]
      by_cases h2 : ∃ p ∈ t, e.2 < p.2
      · obtain ⟨hmem, hlt, hub, hfind⟩ := ih e h2
        refine ⟨List.mem_cons_of_mem e hmem, lt_trans hc hlt, ?_, ?_⟩
        · intro p hp
          rcases List.mem_cons.mp hp with rfl | hp
          · exact le_of_lt hlt
          · exact hub p hp
        · rw [List.find?_cons_of_neg _ (by
            simpa using decide_eq_false (not_le.mpr hlt))]
          exact hfind
      · push_neg at h2
        rw [foldl_maxStep_stay t e h2]
        refine ⟨List.mem_cons_self e t, hc, ?_, ?_⟩
        · intro p hp
          rcases List.mem_cons.mp hp with rfl | hp
          · exact le_refl _
          · exact h2 p hp
        · exact List.find?_cons_of_pos t (by simp)
    · rw [show maxStep acc e = acc from if_neg hc]
      have h2 : ∃ p ∈ t, acc.2 < p.2 := by
        rcases h with ⟨p, hp, hlt⟩
        rcases List.mem_cons.mp hp with rfl | hp
        · exact absurd hlt hc
        · exact ⟨p, hp, hlt⟩
      obtain ⟨hmem, hlt, hub, hfind⟩ := ih acc h2
      refine ⟨List.mem_cons_of_mem e hmem, hlt, ?_, ?_⟩
      · intro p hp
        rcases List.mem_cons.mp hp with rfl | hp
        · exact le_trans (not_lt.mp hc) (le_of_lt hlt)
        · exact hub p hp
      · rw [List.find?_cons_of_neg _ (by
          simpa using decide_eq_false
            (not_le.mpr (lt_of_le_of_lt (not_lt.mp hc) hlt)))]
        exact hfind

/-- C8: for every non-empty emotion→score mapping with a positive maximum,
the selected entry is in the mapping, its score is maximal, and on ties
the first entry (in iteration order) attaining the maximal score is the
one selected. -/
theorem select_max_emotion_argmax (emotion : List (String × ℚ))
    (hne : emotion ≠ []) (hpos : ∃ p ∈ emotion, 0 < p.2) :
    select_max_emotion emotion ∈ emotion ∧
    (∀ p ∈ emotion, p.2 ≤ (select_max_emotion emotion).2) ∧
    emotion.find? (fun p => decide (p.2 = (select_max_emotion emotion).2)) =
      some (select_max_emotion emotion) := by
  simp only [select_max_emotion]
  obtain ⟨hmem, hlt, hub, hfind⟩ := foldl_maxStep_spec emotion ("none", 0) hpos
  refine ⟨hmem, hub, ?_⟩
  rw [find?_congr_on emotion _ _ ?_, hfind]
  intro x hx
  by_cases he : x.2 = (emotion.foldl maxStep ("none", 0)).2
  · simp [he]
  · have hnle : ¬ (emotion.foldl maxStep ("none", 0)).2 ≤ x.2 :=
      not_le.mpr (lt_of_le_of_ne (hub x hx) he)
    simp [he, hnle]

/-- Witness for C8 at a two-way tie: the first-encountered key wins. -/
theorem select_max_emotion_argmax_witness :
    select_max_emotion [("happy", (1 : ℚ)/2), ("sad", 1/2)] ∈
      [("happy", (1 : ℚ)/2), ("sad", 1/2)] ∧
    (∀ p ∈ [("happy", (1 : ℚ)/2), ("sad", 1/2)],
      p.2 ≤ (select_max_emotion [("happy", (1 : ℚ)/2), ("sad", 1/2)]).2) ∧
    [("happy", (1 : ℚ)/2), ("sad", 1/2)].find?
        (fun p => decide
          (p.2 = (select_max_emotion [("happy", (1 : ℚ)/2), ("sad", 1/2)]).2)) =
      some (select_max_emotion [("happy", (1 : ℚ)/2), ("sad", 1/2)]) :=
  select_max_emotion_argmax [("happy", (1 : ℚ)/2), ("sad", 1/2)] (by decide)
    ⟨("happy", (1 : ℚ)/2), List.mem_cons_self _ _, by norm_num⟩

/-- C10: when every score is at most 0 (in particular for an empty
mapping) the selection keeps the sentinel `'none'`, and
`play_music_for_emotion` on `'none'` returns immediately with no audio
operation and `current_music` unchanged, since `'none'` is not a key of
the track table. -/
theorem select_none_no_music (emotion : List (String × ℚ))
    (hnp : ∀ p ∈ emotion, p.2 ≤ 0) :
    (select_max_emotion emotion).1 = "none" ∧
    ∀ (ok : String → Bool) (current_music : Option String),
      play_music_for_emotion ok current_music "none" =
        (current_music, []) := by
  constructor
  · rw [select_max_emotion, foldl_maxStep_stay emotion ("none", 0)
      (fun p hp => hnp p hp)]
  · intro ok current_music
    rfl

/-- Witness for C10 at a mapping whose only score is 0. -/
theorem select_none_no_music_witness :
    (select_max_emotion [("fear", (0 : ℚ))]).1 = "none" ∧
    play_music_for_emotion (fun _ => true) (some "music/happy.mp3") "none" =
      (some "music/happy.mp3", []) :=
  ⟨(select_none_no_music [("fear", (0 : ℚ))] (by decide)).1,
   (select_none_no_music [("fear", (0 : ℚ))] (by decide)).2
     (fun _ => true) (some "music/happy.mp3")⟩
